import Mathlib

/-!
# Verification of the marginal-ROAS optimizer core

This file gives a shallow embedding, in Lean 4, of the analytical engine of
the ROAS (return on ad spend) optimizer: the Hill response curve and its
derivative, seasonal adjustment, recency weighting, the 75-point grid curve
fit, the automatic bound search, the bisection spend optimizer, the single
product optimizer and the portfolio orchestrator.

Modelling conventions:
* JavaScript numbers are modelled as exact rationals (`ℚ`); the claims under
  study are stated in exact arithmetic.
* `Math.pow` (a library primitive with real exponents) is abstracted as an
  explicit parameter `pf : ℚ → ℚ → ℚ` threaded through the embedding; all
  structural theorems hold for every such function.  For the analytic
  properties of the response curve and the recency weights the idealised
  real-number model (`Real.rpow`) is used instead; see `hillYR` and
  `generateRecencyWeightsR`.
* `new Date(...).getDay()/.getMonth()` are abstracted as string-valued
  bucketing functions `dayKey`/`monthKey` in `JsEnv`.
* JS exceptions are modelled with `Except String`; `async` is irrelevant
  (the functions are pure) and is dropped.
* JS `sort` with a `localeCompare` comparator is modelled as a stable
  insertion sort by code-unit lexicographic order on the date strings.
-/

set_option maxRecDepth 100000

/-- The numeric clamp `1e-9` used by the source. -/
def epsClamp : ℚ := 1 / 10 ^ 9

/-- JS truthiness fallback `x || y` for an optional number:
`0`, like a missing value, is falsy and falls through to `y`. -/
def jsOrQ (x : Option ℚ) (y : ℚ) : ℚ :=
  match x with
  | some v => if v = 0 then y else v
  | none => y

/-- JS truthiness fallback `x || y` for an optional string:
the empty string, like a missing value, is falsy and falls through to `y`. -/
def jsOrS (x : Option String) (y : String) : String :=
  match x with
  | some s => if s = "" then y else s
  | none => y

/-- JS `Math.round x = ⌊x + 1/2⌋` (half-up rounding). -/
def jsRound (x : ℚ) : ℤ := ⌊x + 1 / 2⌋

/-- JS `Math.max(...l, base)`. -/
def jsMax (l : List ℚ) (base : ℚ) : ℚ := l.foldl max base

/-- JS `Math.max(...l)` for a nonempty spread.  On `[]` JS yields `-Infinity`;
that case is unreachable in the embedded call sites (which guarantee at least
3 observations) and is mapped to `0` here. -/
def jsMaxNE (l : List ℚ) : ℚ :=
  match l with
  | [] => 0
  | x :: xs => xs.foldl max x

/-- Code-unit lexicographic strict order on strings, the order underlying the
source's `localeCompare` date comparator for ISO date strings. -/
def lexLt : List Char → List Char → Bool
  | [], [] => false
  | [], _ :: _ => true
  | _ :: _, [] => false
  | a :: as, b :: bs =>
    if a.val < b.val then true
    else if b.val < a.val then false
    else lexLt as bs

/-- `a ≤ b` on date strings (negation of the strict order). -/
def dateLe (a b : String) : Bool := !(lexLt b.data a.data)

/-- Hill model parameters (`HillParams` in the source). -/
structure HillParams where
  alpha : ℚ
  gamma : ℚ
  K : ℚ
deriving DecidableEq, Repr

/-- One observation row (`ROASData` in the source). -/
structure ROASData where
  asin : Option String := none
  date : String
  spend : ℚ
  ad_sales : ℚ
  total_sales : Option ℚ := none
  gross_margin : Option ℚ := none
  required_net : Option ℚ := none
deriving DecidableEq, Repr, Inhabited

/-- `ROASData` extended with the deseasonalised revenue
(`ExtendedROASData` in the source). -/
structure ExtROASData extends ROASData where
  ad_sales_adj : Option ℚ := none
deriving DecidableEq, Repr

/-- Margin configuration (`MarginSettings` in the source). -/
structure MarginSettings where
  grossMargin : ℚ
  requiredNet : ℚ
  contributionMargin : ℚ
  requiredMROAS : ℚ
deriving DecidableEq, Repr

/-- The seasonality mode; `off` is the source's `'none'`. -/
inductive Seasonality where
  | off
  | weekly
  | monthly
deriving DecidableEq, Repr

/-- Run settings (`OptimizationSettings` in the source). -/
structure OptimizationSettings where
  currentSpend : ℚ
  maxSpend : ℚ
  seasonality : Seasonality
  recency : ℚ
deriving DecidableEq, Repr

/-- Result record (`OptimizationResults` in the source); the three optional
fields are only populated when a current-spend baseline is supplied. -/
structure OptimizationResults where
  optimalSpend : ℚ
  expectedRevenue : ℚ
  mRoas : ℚ
  totalRoas : ℚ
  feasible : Bool
  currentMROAS : Option ℚ := none
  deltaSpend : Option ℚ := none
  liftVsCurrent : Option ℚ := none
deriving DecidableEq, Repr

/-- The JS library primitives the engine closes over: `Math.pow`, and the
date bucketing `new Date(d).getDay().toString()` /
`new Date(d).getMonth().toString()`. -/
structure JsEnv where
  powf : ℚ → ℚ → ℚ
  dayKey : String → String
  monthKey : String → String

/-- Hill model response (`hillY` in the source):
`y = alpha * (x/K)^gamma / (1 + (x/K)^gamma)` with `K` clamped at `1e-9`. -/
def hillY (pf : ℚ → ℚ → ℚ) (x : ℚ) (params : HillParams) : ℚ :=
  let ratio := x / max params.K epsClamp
  let powered := pf ratio params.gamma
  (params.alpha * powered) / (1 + powered)

/-- Hill model marginal response (`hillDY` in the source), with the `gamma`
exponent clamped at `1e-9` and a zero fallback for a non-positive
denominator. -/
def hillDY (pf : ℚ → ℚ → ℚ) (x : ℚ) (params : HillParams) : ℚ :=
  let ratio := x / max params.K epsClamp
  let powered := pf ratio (max params.gamma epsClamp)
  let numerator := params.alpha * params.gamma * pf ratio (params.gamma - 1)
  let denominator := params.K * pf (1 + powered) 2
  if denominator > 0 then numerator / denominator else 0

/-- Insert one row into a date-sorted list (stable: an earlier original row
is placed before rows with an equal date). -/
def insertByDate (r : ROASData) : List ROASData → List ROASData
  | [] => [r]
  | x :: xs => if dateLe r.date x.date then r :: x :: xs else x :: insertByDate r xs

/-- The source's `[...data].sort((a, b) => a.date.localeCompare(b.date))`,
modelled as a stable insertion sort. -/
def sortByDate (l : List ROASData) : List ROASData := l.foldr insertByDate []

/-- The period bucket of a date under the given mode (`getDay` for weekly,
`getMonth` for monthly). -/
def bucketKey (env : JsEnv) (mode : Seasonality) (date : String) : String :=
  match mode with
  | .weekly => env.dayKey date
  | _ => env.monthKey date

/-- Seasonal adjustment (`adjustForSeasonality` in the source).  Returns the
deseasonalised rows together with the factor of the bucket containing the
last row's date.  The per-bucket `{sum, count}` table is modelled as an
insertion-ordered association list. -/
def adjustForSeasonality (env : JsEnv) (data : List ROASData) (mode : Seasonality) :
    List ExtROASData × ℚ :=
  match mode with
  | .off => (data.map (fun d => { toROASData := d, ad_sales_adj := some d.ad_sales }), 1)
  | _ =>
    let groups : List (String × ℚ × ℕ) :=
      data.foldl (fun acc row =>
        let key := bucketKey env mode row.date
        if acc.any (fun p => p.1 = key) then
          acc.map (fun p => if p.1 = key then (p.1, p.2.1 + row.ad_sales, p.2.2 + 1) else p)
        else acc ++ [(key, row.ad_sales, 1)]) []
    let totalSum := data.foldl (fun s r => s + r.ad_sales) 0
    let totalCount : ℕ := data.length
    let overallAvg := totalSum / max (totalCount : ℚ) 1
    let factorOf : String → Option ℚ := fun key =>
      match groups.find? (fun p => p.1 = key) with
      | some p =>
        let groupAvg := p.2.1 / max (p.2.2 : ℚ) 1
        some (if groupAvg > 0 then groupAvg / overallAvg else 1)
      | none => none
    let adjusted := data.map (fun row =>
      let f := jsOrQ (factorOf (bucketKey env mode row.date)) 1
      { toROASData := row, ad_sales_adj := some (row.ad_sales / f) })
    let currentFactor :=
      match data.getLast? with
      | some last => jsOrQ (factorOf (bucketKey env mode last.date)) 1
      | none => 1
    (adjusted, currentFactor)

/-- Recency weights (`generateRecencyWeights` in the source):
`((i+1)/n)^(1+4*recencyFactor)` rescaled by `n / sum`. -/
def generateRecencyWeights (pf : ℚ → ℚ → ℚ) (n : ℕ) (recencyFactor : ℚ) : List ℚ :=
  let exponent := 1 + 4 * recencyFactor
  let weights := (List.range n).map (fun (i : ℕ) => pf (((i : ℚ) + 1) / (n : ℚ)) exponent)
  let sum := weights.foldl (· + ·) 0
  weights.map (fun w => w * (n : ℚ) / sum)

/-- The weighted sum of squared residuals objective of the curve fit
(the inner loop of `fitHillModel`): index `i` runs over `spend`, the weight
defaults to `1` when no weight list is supplied. -/
def sseOf (pf : ℚ → ℚ → ℚ) (spend revenue : List ℚ) (weights : Option (List ℚ))
    (params : HillParams) : ℚ :=
  (List.range spend.length).foldl (fun acc i =>
    let predicted := hillY pf (spend.getD i 0) params
    let error := predicted - revenue.getD i 0
    let weight := match weights with
      | some ws => ws.getD i 1
      | none => 1
    acc + weight * error * error) 0

/-- The 75-point hypothesis grid of `fitHillModel`, in enumeration order
(`alpha` outer, `gamma` middle, `K` inner). -/
def hillGrid (spend revenue : List ℚ) : List HillParams :=
  let maxRevenue := jsMaxNE revenue
  let maxSpend := jsMax spend 1
  let alphas := [(1.05 : ℚ), 1.1, 1.2].map (fun m => m * maxRevenue)
  let gammas := [(1.1 : ℚ), 1.3, 1.6, 2.0, 2.5]
  let Ks := [(0.25 : ℚ), 0.5, 0.75, 1.0, 1.5].map (fun m => m * maxSpend)
  alphas.flatMap (fun alpha => gammas.flatMap (fun gamma => Ks.map (fun K =>
    ⟨alpha, gamma, K⟩)))

/-- One comparison step of the grid search: the running state is the best
parameters so far together with their SSE (`none` models the initial
`bestSSE = Infinity`, which every finite SSE beats). -/
def fitStep (ssef : HillParams → ℚ) (acc : HillParams × Option ℚ) (p : HillParams) :
    HillParams × Option ℚ :=
  let s := ssef p
  match acc.2 with
  | none => (p, some s)
  | some b => if s < b then (p, some s) else acc

/-- Grid-search curve fit (`fitHillModel` in the source).  The 8-second
wall-clock time-box of the source is modelled as never firing (the claims
under study condition on exactly that case), so the three nested loops run
to completion. -/
def fitHillModel (pf : ℚ → ℚ → ℚ) (spend revenue : List ℚ)
    (weights : Option (List ℚ)) : HillParams :=
  let maxRevenue := jsMaxNE revenue
  let maxSpend := jsMax spend 1
  let alphas := [(1.05 : ℚ), 1.1, 1.2].map (fun m => m * maxRevenue)
  let gammas := [(1.1 : ℚ), 1.3, 1.6, 2.0, 2.5]
  let Ks := [(0.25 : ℚ), 0.5, 0.75, 1.0, 1.5].map (fun m => m * maxSpend)
  let ssef := sseOf pf spend revenue weights
  let init : HillParams × Option ℚ := (⟨alphas.getD 0 0, 1.6, Ks.getD 2 0⟩, none)
  (alphas.foldl (fun acc alpha =>
    gammas.foldl (fun acc gamma =>
      Ks.foldl (fun acc K => fitStep ssef acc ⟨alpha, gamma, K⟩) acc) acc) init).1

/-- The marginal-return closure `(s) => hillDY(s, params) * factor` that both
`autoBound` (as `mAt`) and `findOptimalSpend` (as `marginalROAS`) build. -/
def marginalAt (pf : ℚ → ℚ → ℚ) (params : HillParams) (factor : ℚ) (s : ℚ) : ℚ :=
  hillDY pf s params * factor

/-- The initial `bestParams` of the grid search (immediately overwritten by
the first combination, since every finite SSE beats `Infinity`). -/
def fitInit (spend revenue : List ℚ) : HillParams :=
  ⟨([(1.05 : ℚ), 1.1, 1.2].map (fun m => m * jsMaxNE revenue)).getD 0 0, 1.6,
   ([(0.25 : ℚ), 0.5, 0.75, 1.0, 1.5].map (fun m => m * jsMax spend 1)).getD 2 0⟩

/-- The bound-expansion loop of `autoBound`: up to `fuel` times, while the
marginal return at `hi` still exceeds the target and `hi` is below the
ceiling, multiply `hi` by `1.8`. -/
def autoBoundLoop (mAt : ℚ → ℚ) (required hiMax : ℚ) : ℚ → ℕ → ℚ
  | hi, 0 => hi
  | hi, Nat.succ k =>
    if mAt hi > required ∧ hi < hiMax then autoBoundLoop mAt required hiMax (hi * 1.8) k
    else hi

/-- Automatic upper-bound helper (`autoBound` in the source). -/
def autoBound (pf : ℚ → ℚ → ℚ) (X : List ℚ) (params : HillParams)
    (required : ℚ) (factorNow : ℚ) : ℚ :=
  let mAt := marginalAt pf params factorNow
  let maxHist := jsMax X 1
  let hi0 := max (max (2 * maxHist) (4 * params.K)) 1
  let hiMax := max (50 * maxHist) (20 * params.K)
  min (autoBoundLoop mAt required hiMax hi0 32) hiMax

/-- The 513 evenly spaced sample points of the peak scan on `[0, maxSpend]`. -/
def samplePts (maxSpend : ℚ) : List ℚ :=
  (List.range 513).map (fun (i : ℕ) => (i : ℚ) / 512 * maxSpend)

/-- One step of the peak scan.  The accumulator is `none` before the first
sample (modelling `peakMROAS = -Infinity`, which every value strictly
beats) and `some (peakSpend, peakMROAS)` afterwards. -/
def scanStep (m : ℚ → ℚ) (acc : Option (ℚ × ℚ)) (s : ℚ) : Option (ℚ × ℚ) :=
  match acc with
  | none => some (s, m s)
  | some pk => if m s > pk.2 then some (s, m s) else some pk

/-- The peak localisation of `findOptimalSpend`: the argmax (first attained)
and max of the marginal-return curve over the 513 samples. -/
def peakPair (m : ℚ → ℚ) (maxSpend : ℚ) : ℚ × ℚ :=
  ((samplePts maxSpend).foldl (scanStep m) none).getD (0, 0)

/-- The bisection loop of `findOptimalSpend` on the declining branch:
if the marginal return at the midpoint is still at least the target the
lower bound moves up, otherwise the upper bound moves down. -/
def bisectPair (m : ℚ → ℚ) (target : ℚ) : ℚ × ℚ → ℕ → ℚ × ℚ
  | lh, 0 => lh
  | lh, Nat.succ k =>
    let mid := (lh.1 + lh.2) / 2
    if m mid ≥ target then bisectPair m target (mid, lh.2) k
    else bisectPair m target (lh.1, mid) k

/-- Target-marginal-return spend search (`findOptimalSpend` in the source):
peak scan, feasibility check, then 60 bisection iterations. -/
def findOptimalSpend (pf : ℚ → ℚ → ℚ) (targetMROAS : ℚ) (params : HillParams)
    (maxSpend : ℚ) (seasonalFactor : ℚ) : OptimizationResults :=
  let marginalROAS := marginalAt pf params seasonalFactor
  let pk := peakPair marginalROAS maxSpend
  if pk.2 < targetMROAS then
    { optimalSpend := 0, expectedRevenue := 0, mRoas := pk.2, totalRoas := 0,
      feasible := false }
  else
    let lh := bisectPair marginalROAS targetMROAS (pk.1, maxSpend) 60
    let optimalSpend := lh.1
    let expectedRevenue := hillY pf optimalSpend params * seasonalFactor
    let totalRoas := expectedRevenue / max optimalSpend 1
    { optimalSpend := optimalSpend, expectedRevenue := expectedRevenue,
      mRoas := marginalROAS optimalSpend, totalRoas := totalRoas, feasible := true }

/-- Single product optimisation (`optimizeSingleASIN` in the source).  The
one validation failure (`fewer than 3 data points`) is modelled with
`Except.error`; everything past it is total. -/
def optimizeSingleASIN (env : JsEnv) (data : List ROASData)
    (marginSettings : MarginSettings) (settings : OptimizationSettings) :
    Except String OptimizationResults :=
  if data.length < 3 then .error "At least 3 data points required"
  else
    let contributionMargin := marginSettings.contributionMargin / 100
    let targetMROAS := 1 / contributionMargin
    let sortedData := sortByDate data
    let adj := adjustForSeasonality env sortedData settings.seasonality
    let adjustedData := adj.1
    let currentFactor := adj.2
    let spendArray := adjustedData.map (fun d => d.spend)
    let revenueArray := adjustedData.map (fun d => jsOrQ d.ad_sales_adj d.ad_sales)
    let weights := generateRecencyWeights env.powf adjustedData.length settings.recency
    let params := fitHillModel env.powf spendArray revenueArray (some weights)
    let maxSearchSpend := autoBound env.powf spendArray params targetMROAS currentFactor
    let results := findOptimalSpend env.powf targetMROAS params maxSearchSpend currentFactor
    if settings.currentSpend > 0 then
      let currentRevenue := hillY env.powf settings.currentSpend params * currentFactor
      let currentMROAS := hillDY env.powf settings.currentSpend params * currentFactor
      .ok { results with
            currentMROAS := some currentMROAS,
            deltaSpend := some (results.optimalSpend - settings.currentSpend),
            liftVsCurrent := some (results.expectedRevenue - currentRevenue) }
    else .ok results

/-- A per-product result row of the portfolio run.  The source builds untyped
JS objects whose numeric fields are formatted strings (`toFixed`, `Math.round`);
formatting is presentation (out of scope per the spec), so the fields here
hold the underlying values, with `none` for fields a row does not carry
(and, for `organicShare`, for the source's `null` / `'—'`). -/
structure PortfolioRow where
  asin : String
  contributionMargin : Option ℚ := none
  requiredMROAS : Option ℚ := none
  optimalSpend : Option ℤ := none
  expectedAdSales : Option ℤ := none
  totalROAS : Option ℚ := none
  mROAS : Option ℚ := none
  currentSpend : Option ℤ := none
  deltaSpend : Option ℤ := none
  liftVsCurrent : Option ℤ := none
  organicShare : Option ℚ := none
  action : String
  feasible : Bool
deriving DecidableEq, Repr

instance : Inhabited PortfolioRow := ⟨{ asin := "", action := "", feasible := false }⟩

/-- Grouping of the observations by entity (`asinGroups` in the source):
an insertion-ordered association list keyed by `row.asin || 'UNKNOWN'`. -/
def groupStep (acc : List (String × List ROASData)) (row : ROASData) :
    List (String × List ROASData) :=
  let key := jsOrS row.asin "UNKNOWN"
  if acc.any (fun p => p.1 = key) then
    acc.map (fun p => if p.1 = key then (p.1, p.2 ++ [row]) else p)
  else acc ++ [(key, [row])]

def groupByAsin (data : List ROASData) : List (String × List ROASData) :=
  data.foldl groupStep []

/-- The per-entity contribution-margin resolution of `optimizePortfolio`
(lines `const cm = (firstRow.gross_margin && firstRow.required_net) ? ...`):
the override applies only when both fields are JS-truthy, i.e. present and
non-zero. -/
def portfolioCM (firstRow : ROASData) (marginSettings : MarginSettings) : ℚ :=
  match firstRow.gross_margin, firstRow.required_net with
  | some g, some r =>
    if g ≠ 0 ∧ r ≠ 0 then (g - r) / 100 else marginSettings.contributionMargin / 100
  | _, _ => marginSettings.contributionMargin / 100

/-- Modelled from the claim wording of C4 (not from the source): the organic
share with *both* sums restricted to observations whose `totalRevenue`
(`total_sales`) is present, unreported when that sum is zero or when no
observation supplies it. -/
def organicShareClaim (rows : List ROASData) : Option ℚ :=
  let present := rows.filter (fun d => d.total_sales ≠ none)
  let totalSalesSum : ℚ := (present.map (fun d => d.total_sales.getD 0)).sum
  let adSalesSum : ℚ := (present.map (fun d => d.ad_sales)).sum
  if totalSalesSum = 0 ∨ present = [] then none
  else some ((totalSalesSum - adSalesSum) / totalSalesSum * 100)

/-- The body of the `try` block of `optimizePortfolio` for one entity group.
The early `insufficient data` and `non-positive margin` rows are ordinary
(`Except.ok`) results; the only exception source inside the block is
`optimizeSingleASIN`. -/
def processASINtry (env : JsEnv) (marginSettings : MarginSettings)
    (settings : OptimizationSettings) (asin : String) (asinData : List ROASData) :
    Except String PortfolioRow :=
  if asinData.length < 3 then
    .ok { asin := asin, action := "Insufficient data (< 3 points)", feasible := false }
  else
    let sortedAsinData := sortByDate asinData
    let firstRow := sortedAsinData.headD default
    let cm := portfolioCM firstRow marginSettings
    if cm ≤ 0 then
      .ok { asin := asin, action := "Non-positive contribution margin", feasible := false }
    else
      let asinMargins := { marginSettings with
                           contributionMargin := cm * 100, requiredMROAS := 1 / cm }
      match optimizeSingleASIN env sortedAsinData asinMargins settings with
      | .error e => .error e
      | .ok asinResults =>
        let currentSpend := (sortedAsinData.getLastD default).spend
        let adj := adjustForSeasonality env sortedAsinData settings.seasonality
        let spendArray := adj.1.map (fun d => d.spend)
        let revenueArray := adj.1.map (fun d => jsOrQ d.ad_sales_adj d.ad_sales)
        let params := fitHillModel env.powf spendArray revenueArray none
        let currentRevenue := hillY env.powf currentSpend params
        let totalSalesSum : ℚ :=
          (sortedAsinData.filter (fun d => d.total_sales ≠ none)).foldl
            (fun s d => s + d.total_sales.getD 0) 0
        let adSalesSum := sortedAsinData.foldl (fun s d => s + d.ad_sales) 0
        let organicSales := totalSalesSum - adSalesSum
        let organicShare :=
          if totalSalesSum > 0 then some (organicSales / totalSalesSum * 100) else none
        let actionText :=
          if asinResults.feasible then
            if asinResults.optimalSpend > currentSpend then "Increase" else "Decrease"
          else "Pause (no feasible solution)"
        .ok { asin := asin,
              contributionMargin := some (cm * 100),
              requiredMROAS := some (1 / cm),
              optimalSpend := some (jsRound asinResults.optimalSpend),
              expectedAdSales := some (jsRound asinResults.expectedRevenue),
              totalROAS := some asinResults.totalRoas,
              mROAS := some asinResults.mRoas,
              currentSpend := some (jsRound currentSpend),
              deltaSpend := some (jsRound (asinResults.optimalSpend - currentSpend)),
              liftVsCurrent := some (jsRound (asinResults.expectedRevenue - currentRevenue)),
              organicShare := organicShare,
              action := actionText,
              feasible := asinResults.feasible }

/-- One entity group of the portfolio run, `try` body plus `catch`: any
exception becomes that entity's row with `action = "Error: <message>"`. -/
def processASIN (env : JsEnv) (marginSettings : MarginSettings)
    (settings : OptimizationSettings) (asin : String) (asinData : List ROASData) :
    PortfolioRow :=
  match processASINtry env marginSettings settings asin asinData with
  | .ok row => row
  | .error e => { asin := asin, action := "Error: " ++ e, feasible := false }

/-- Portfolio optimisation (`optimizePortfolio` in the source): group by
entity, then process every group independently, in discovery order. -/
def optimizePortfolio (env : JsEnv) (data : List ROASData)
    (marginSettings : MarginSettings) (settings : OptimizationSettings) :
    List PortfolioRow :=
  (groupByAsin data).map (fun g => processASIN env marginSettings settings g.1 g.2)

/-- Real-number Hill parameters, for the analytic properties of the
response curve. -/
structure HillParamsR where
  alpha : ℝ
  gamma : ℝ
  K : ℝ

/-- The numeric clamp `1e-9` over the reals. -/
noncomputable def epsClampR : ℝ := 1 / 10 ^ 9

/-- The Hill response over the reals with the exact `Math.pow` semantics
(`Real.rpow`): the idealised model of `hillY`. -/
noncomputable def hillYR (x : ℝ) (params : HillParamsR) : ℝ :=
  let ratio := x / max params.K epsClampR
  let powered := ratio ^ params.gamma
  (params.alpha * powered) / (1 + powered)

/-- The recency weights over the reals with the exact `Math.pow` semantics
(`Real.rpow`): the idealised model of `generateRecencyWeights`. -/
noncomputable def generateRecencyWeightsR (n : ℕ) (recencyFactor : ℝ) : List ℝ :=
  let exponent : ℝ := 1 + 4 * recencyFactor
  let weights := (List.range n).map (fun (i : ℕ) => (((i : ℝ) + 1) / (n : ℝ)) ^ exponent)
  let sum := weights.foldl (· + ·) 0
  weights.map (fun w => w * (n : ℝ) / sum)

/-! ## Concrete fixtures used by witnesses and counterexamples -/

/-- A degenerate power oracle: `pow(a, b) = 0`. -/
def pfZero : ℚ → ℚ → ℚ := fun _ _ => 0

/-- Exact `Math.pow` semantics at the integer exponents `1` and `2`:
`pow(a, 1) = a` and `pow(a, 2) = a·a`, which is real exponentiation exactly.
With `gamma = 2` these are the only exponents the engine ever passes to the
oracle (`max(gamma, 1e-9) = 2`, `gamma − 1 = 1`, the literal square `2`, and
`gamma = 2` itself), so on such runs this oracle *is* `Math.pow` in exact
arithmetic.  Other exponents are unused and mapped to `0`. -/
def pfPoly : ℚ → ℚ → ℚ := fun a b => if b = 1 then a else if b = 2 then a * a else 0

/-- A trivial date bucketing. -/
def idKey : String → String := fun s => s

def envZero : JsEnv := ⟨pfZero, idKey, idKey⟩

/-- The UI default margin configuration (11% contribution margin). -/
def msBase : MarginSettings :=
  { grossMargin := 25, requiredNet := 14, contributionMargin := 11, requiredMROAS := 9.09 }

/-- A margin configuration with a negative contribution margin. -/
def msNeg : MarginSettings :=
  { grossMargin := 25, requiredNet := 75, contributionMargin := -50, requiredMROAS := -2 }

def stPlain : OptimizationSettings :=
  { currentSpend := 0, maxSpend := 1000, seasonality := .off, recency := 0 }

def rowD1 : ROASData := { asin := some "A", date := "2024-01-01", spend := 300, ad_sales := 2600 }

def rowD2 : ROASData := { asin := some "A", date := "2024-01-02", spend := 400, ad_sales := 3000 }

def rowD3 : ROASData := { asin := some "A", date := "2024-01-03", spend := 500, ad_sales := 3300 }

def rowO1 : ROASData :=
  { asin := some "A", date := "2024-01-01", spend := 10, ad_sales := 10, total_sales := some 100 }

def rowO2 : ROASData :=
  { asin := some "A", date := "2024-01-02", spend := 20, ad_sales := 10, total_sales := some 100 }

def rowO3 : ROASData :=
  { asin := some "A", date := "2024-01-03", spend := 30, ad_sales := 50, total_sales := none }

def rowW1 : ROASData := { asin := some "A", date := "2024-01-01", spend := 1, ad_sales := 5 }

def rowW2 : ROASData := { asin := some "B", date := "2024-01-02", spend := 2, ad_sales := 6 }

def rowZeroGM : ROASData :=
  { asin := some "A", date := "2024-01-01", spend := 1, ad_sales := 5,
    gross_margin := some 0, required_net := some 14 }

/-! ## Shared structural lemmas -/

/-- Past the 3-observation validation, `optimizeSingleASIN` always succeeds:
the rest of the pipeline is total. -/
lemma optimizeSingleASIN_ok (env : JsEnv) (data : List ROASData)
    (ms : MarginSettings) (st : OptimizationSettings) (h : 3 ≤ data.length) :
    ∃ r, optimizeSingleASIN env data ms st = .ok r := by
  simp only [optimizeSingleASIN]
  rw [if_neg (by omega)]
  by_cases hc : st.currentSpend > 0
  · exact ⟨_, by rw [if_pos hc]⟩
  · exact ⟨_, by rw [if_neg hc]⟩

/-- **C1** (amended).  `optimizeSingleASIN` fails exactly on fewer than 3
observations; a non-positive contribution margin is *not* validated here
(that screening happens only in `optimizePortfolio`), so with at least 3
observations the call returns a result whatever the margin configuration. -/
theorem c1_optimizeSingle_validation (env : JsEnv) (data : List ROASData)
    (ms : MarginSettings) (st : OptimizationSettings) :
    (data.length < 3 →
      optimizeSingleASIN env data ms st = .error "At least 3 data points required") ∧
    (3 ≤ data.length → ∃ r, optimizeSingleASIN env data ms st = .ok r) := by
  constructor
  · intro h
    simp only [optimizeSingleASIN]
    rw [if_pos h]
  · exact optimizeSingleASIN_ok env data ms st

/-- **C1** witness: with fewer than 3 observations the validation error is
raised. -/
theorem c1_witness :
    optimizeSingleASIN envZero [rowD1] msBase stPlain
      = .error "At least 3 data points required" :=
  (c1_optimizeSingle_validation envZero [rowD1] msBase stPlain).1 (by decide)

/-- **C1** counterexample: a margin configuration with non-positive
contribution margin together with 3 observations makes `optimizeSingleASIN`
return a result (`Except.ok`), not a `ValidationError`, refuting the claim
that a non-positive contribution margin fails. -/
theorem c1_counterexample :
    msNeg.contributionMargin ≤ 0 ∧
    ∃ r, optimizeSingleASIN envZero [rowD1, rowD2, rowD3] msNeg stPlain = .ok r :=
  ⟨by norm_num [msNeg], optimizeSingleASIN_ok envZero [rowD1, rowD2, rowD3] msNeg stPlain (by decide)⟩

/-- **C10**.  In the portfolio margin resolution, the per-entity override
`(grossMargin − requiredNet)/100` is used only when the earliest-sorted
observation carries both fields with JS-truthy (non-zero) values; a present
`gross_margin = 0` or `required_net = 0` (or a missing field) falls back to
the global contribution margin. -/
theorem c10_margin_override_truthiness (first : ROASData) (ms : MarginSettings) :
    (∀ g r, first.gross_margin = some g → first.required_net = some r →
      g ≠ 0 → r ≠ 0 → portfolioCM first ms = (g - r) / 100) ∧
    (first.gross_margin = some 0 ∨ first.required_net = some 0 ∨
       first.gross_margin = none ∨ first.required_net = none →
      portfolioCM first ms = ms.contributionMargin / 100) := by
  constructor
  · intro g r hg hr hg0 hr0
    simp [portfolioCM, hg, hr, hg0, hr0]
  · intro h
    cases hG : first.gross_margin with
    | none => simp [portfolioCM, hG]
    | some g =>
      cases hR : first.required_net with
      | none => simp [portfolioCM, hG, hR]
      | some r =>
        rcases h with h | h | h | h
        · rw [hG] at h
          injection h with h
          simp [portfolioCM, hG, hR, h]
        · rw [hR] at h
          injection h with h
          simp [portfolioCM, hG, hR, h]
        · rw [hG] at h; cases h
        · rw [hR] at h; cases h

/-- **C10** witness: an entity whose earliest observation has
`gross_margin = 0` (present but zero) falls back to the global margin. -/
theorem c10_witness :
    portfolioCM rowZeroGM msBase = msBase.contributionMargin / 100 :=
  (c10_margin_override_truthiness rowZeroGM msBase).2 (Or.inl rfl)

/-- The peak scan, run from an already-initialised accumulator, keeps the
running pair of the form `(q, m q)`, only moves to strictly larger values,
and ends at an upper bound of all scanned samples. -/
lemma scanStep_go (m : ℚ → ℚ) :
    ∀ (pts : List ℚ) (p : ℚ),
      ∃ q, pts.foldl (scanStep m) (some (p, m p)) = some (q, m q) ∧
        (q = p ∨ q ∈ pts) ∧ m p ≤ m q ∧ ∀ s ∈ pts, m s ≤ m q := by
  intro pts
  induction pts with
  | nil =>
    intro p
    exact ⟨p, rfl, Or.inl rfl, le_refl _, by simp⟩
  | cons s rest ih =>
    intro p
    rw [List.foldl_cons]
    by_cases h : m s > m p
    · obtain ⟨q, heq, hmem, hle, hbound⟩ := ih s
      refine ⟨q, ?_, ?_, ?_, ?_⟩
      · rw [show scanStep m (some (p, m p)) s = some (s, m s) by simp [scanStep, h]]
        exact heq
      · rcases hmem with h1 | h1
        · exact Or.inr (h1 ▸ List.mem_cons_self s rest)
        · exact Or.inr (List.mem_cons_of_mem s h1)
      · exact le_trans (le_of_lt h) hle
      · intro t ht
        rcases List.mem_cons.mp ht with rfl | ht
        · exact hle
        · exact hbound t ht
    · obtain ⟨q, heq, hmem, hle, hbound⟩ := ih p
      refine ⟨q, ?_, ?_, hle, ?_⟩
      · rw [show scanStep m (some (p, m p)) s = some (p, m p) by simp [scanStep, h]]
        exact heq
      · rcases hmem with h1 | h1
        · exact Or.inl h1
        · exact Or.inr (List.mem_cons_of_mem s h1)
      · intro t ht
        rcases List.mem_cons.mp ht with rfl | ht
        · exact le_trans (le_of_not_lt h) hle
        · exact hbound t ht

/-- The sample list always has `0 * maxSpend / 512 = 0` as its head. -/
lemma samplePts_eq_cons (maxSpend : ℚ) :
    samplePts maxSpend =
      (0 : ℚ) / 512 * maxSpend ::
        (List.range 512).map (fun i => ((Nat.succ i : ℕ) : ℚ) / 512 * maxSpend) := by
  rw [samplePts, List.range_succ_eq_map, List.map_cons, List.map_map]
  rfl

/-- Characterisation of the peak scan of `findOptimalSpend`: it returns a
sampled argmax/max pair of the marginal curve over the 513 samples. -/
lemma peakPair_spec (m : ℚ → ℚ) (maxSpend : ℚ) :
    ∃ q, peakPair m maxSpend = (q, m q) ∧ q ∈ samplePts maxSpend ∧
      ∀ s ∈ samplePts maxSpend, m s ≤ m q := by
  rw [peakPair, samplePts_eq_cons, List.foldl_cons]
  rw [show scanStep m none ((0 : ℚ) / 512 * maxSpend)
        = some ((0 : ℚ) / 512 * maxSpend, m ((0 : ℚ) / 512 * maxSpend)) from rfl]
  obtain ⟨q, heq, hmem, hle, hbound⟩ := scanStep_go m
    ((List.range 512).map (fun i => ((Nat.succ i : ℕ) : ℚ) / 512 * maxSpend))
    ((0 : ℚ) / 512 * maxSpend)
  refine ⟨q, by rw [heq]; rfl, ?_, ?_⟩
  · rcases hmem with h1 | h1
    · exact h1 ▸ List.mem_cons_self _ _
    · exact List.mem_cons_of_mem _ h1
  · intro s hs
    rcases List.mem_cons.mp hs with rfl | hs
    · exact hle
    · exact hbound s hs

/-- Every sample point lies in `[0, maxSpend]` when `maxSpend ≥ 0`. -/
lemma samplePts_bounds (maxSpend : ℚ) (h : 0 ≤ maxSpend) :
    ∀ s ∈ samplePts maxSpend, 0 ≤ s ∧ s ≤ maxSpend := by
  intro s hs
  simp only [samplePts, List.mem_map, List.mem_range] at hs
  obtain ⟨i, hi, rfl⟩ := hs
  constructor
  · exact mul_nonneg (by positivity) h
  · have hle : (i : ℚ) / 512 ≤ 1 := by
      rw [div_le_one (by norm_num)]
      exact_mod_cast Nat.le_of_lt_succ hi
    calc (i : ℚ) / 512 * maxSpend ≤ 1 * maxSpend :=
          mul_le_mul_of_nonneg_right hle h
      _ = maxSpend := one_mul maxSpend

/-- The bisection bracket halves exactly at each iteration. -/
lemma bisectPair_width (m : ℚ → ℚ) (target : ℚ) :
    ∀ (n : ℕ) (lh : ℚ × ℚ),
      (bisectPair m target lh n).2 - (bisectPair m target lh n).1
        = (lh.2 - lh.1) / 2 ^ n := by
  intro n
  induction n with
  | zero => intro lh; simp [bisectPair]
  | succ k ih =>
    intro lh
    rw [bisectPair]
    by_cases h : m ((lh.1 + lh.2) / 2) ≥ target
    · rw [if_pos h, ih]
      show (lh.2 - (lh.1 + lh.2) / 2) / 2 ^ k = (lh.2 - lh.1) / 2 ^ (k + 1)
      field_simp
      ring
    · rw [if_neg h, ih]
      show ((lh.1 + lh.2) / 2 - lh.1) / 2 ^ k = (lh.2 - lh.1) / 2 ^ (k + 1)
      field_simp
      ring

/-- The bisection invariant: the lower bound always satisfies the target. -/
lemma bisectPair_low (m : ℚ → ℚ) (target : ℚ) :
    ∀ (n : ℕ) (lh : ℚ × ℚ), target ≤ m lh.1 →
      target ≤ m (bisectPair m target lh n).1 := by
  intro n
  induction n with
  | zero => intro lh h; exact h
  | succ k ih =>
    intro lh h
    rw [bisectPair]
    by_cases hm : m ((lh.1 + lh.2) / 2) ≥ target
    · rw [if_pos hm]; exact ih _ hm
    · rw [if_neg hm]; exact ih _ h

/-- With the degenerate zero power oracle the marginal curve is identically
zero (the derivative denominator is `0`, triggering the zero fallback). -/
lemma hillDY_pfZero (s : ℚ) (params : HillParams) : hillDY pfZero s params = 0 := by
  simp [hillDY, pfZero]

/-- **C3**.  Infeasibility invariant of `findOptimalSpend`: if every sampled
marginal return over the 513-point grid is below the target, the returned
record is exactly `⟨0, 0, peak, 0, false⟩` where `peak` is the sampled
maximum of the marginal curve; conversely a `feasible = false` result always
carries `optimalSpend = 0`, `expectedRevenue = 0`, `totalRoas = 0` and
`mRoas` equal to the sampled peak. -/
theorem c3_infeasibility_invariant (pf : ℚ → ℚ → ℚ) (targetMROAS : ℚ)
    (params : HillParams) (maxSpend seasonalFactor : ℚ) :
    ((∀ s ∈ samplePts maxSpend, marginalAt pf params seasonalFactor s < targetMROAS) →
      findOptimalSpend pf targetMROAS params maxSpend seasonalFactor =
        { optimalSpend := 0, expectedRevenue := 0,
          mRoas := (peakPair (marginalAt pf params seasonalFactor) maxSpend).2,
          totalRoas := 0, feasible := false } ∧
      (peakPair (marginalAt pf params seasonalFactor) maxSpend).2
        ∈ (samplePts maxSpend).map (marginalAt pf params seasonalFactor) ∧
      ∀ s ∈ samplePts maxSpend,
        marginalAt pf params seasonalFactor s
          ≤ (peakPair (marginalAt pf params seasonalFactor) maxSpend).2) ∧
    ((findOptimalSpend pf targetMROAS params maxSpend seasonalFactor).feasible = false →
      (findOptimalSpend pf targetMROAS params maxSpend seasonalFactor).optimalSpend = 0 ∧
      (findOptimalSpend pf targetMROAS params maxSpend seasonalFactor).expectedRevenue = 0 ∧
      (findOptimalSpend pf targetMROAS params maxSpend seasonalFactor).totalRoas = 0 ∧
      (findOptimalSpend pf targetMROAS params maxSpend seasonalFactor).mRoas
        = (peakPair (marginalAt pf params seasonalFactor) maxSpend).2) := by
  obtain ⟨q, hq, hqmem, hqbound⟩ := peakPair_spec (marginalAt pf params seasonalFactor) maxSpend
  constructor
  · intro hlt
    have hpk : (peakPair (marginalAt pf params seasonalFactor) maxSpend).2 < targetMROAS := by
      rw [hq]
      exact hlt q hqmem
    refine ⟨?_, ?_, ?_⟩
    · simp only [findOptimalSpend]
      rw [if_pos hpk]
    · rw [hq]
      exact List.mem_map.mpr ⟨q, hqmem, rfl⟩
    · intro s hs
      rw [hq]
      exact hqbound s hs
  · intro hfeas
    by_cases hpk : (peakPair (marginalAt pf params seasonalFactor) maxSpend).2 < targetMROAS
    · have heq : findOptimalSpend pf targetMROAS params maxSpend seasonalFactor =
          { optimalSpend := 0, expectedRevenue := 0,
            mRoas := (peakPair (marginalAt pf params seasonalFactor) maxSpend).2,
            totalRoas := 0, feasible := false } := by
        simp only [findOptimalSpend]
        rw [if_pos hpk]
      rw [heq]
      exact ⟨rfl, rfl, rfl, rfl⟩
    · exfalso
      have heq : (findOptimalSpend pf targetMROAS params maxSpend seasonalFactor).feasible
          = true := by
        simp only [findOptimalSpend]
        rw [if_neg hpk]
      rw [heq] at hfeas
      cases hfeas

/-- **C3** witness: with the zero power oracle the marginal curve is flat at
`0`, every sample is below the target `1`, and the infeasible record is
returned. -/
theorem c3_witness :
    findOptimalSpend pfZero 1 ⟨1, 1, 1⟩ 4 1 =
      { optimalSpend := 0, expectedRevenue := 0,
        mRoas := (peakPair (marginalAt pfZero ⟨1, 1, 1⟩ 1) 4).2,
        totalRoas := 0, feasible := false } ∧
    (peakPair (marginalAt pfZero ⟨1, 1, 1⟩ 1) 4).2
      ∈ (samplePts 4).map (marginalAt pfZero ⟨1, 1, 1⟩ 1) ∧
    ∀ s ∈ samplePts 4,
      marginalAt pfZero ⟨1, 1, 1⟩ 1 s ≤ (peakPair (marginalAt pfZero ⟨1, 1, 1⟩ 1) 4).2 :=
  (c3_infeasibility_invariant pfZero 1 ⟨1, 1, 1⟩ 4 1).1
    (fun s _ => by rw [marginalAt, hillDY_pfZero]; norm_num)

/-- **C7** (amended).  On every feasible run, the returned spend is the lower
end of the 60-step bisection bracket, the marginal return there (and the
reported `mRoas`) is at least the target, and the final bracket width is
`(maxSearchSpend − peakSpend) / 2^60`, which is at most
`maxSearchSpend / 2^60`. -/
theorem c7_bisection_convergence (pf : ℚ → ℚ → ℚ) (targetMROAS : ℚ)
    (params : HillParams) (maxSpend seasonalFactor : ℚ) (hms : 0 ≤ maxSpend)
    (hfeas : (findOptimalSpend pf targetMROAS params maxSpend seasonalFactor).feasible
      = true) :
    (findOptimalSpend pf targetMROAS params maxSpend seasonalFactor).optimalSpend
      = (bisectPair (marginalAt pf params seasonalFactor) targetMROAS
          ((peakPair (marginalAt pf params seasonalFactor) maxSpend).1, maxSpend) 60).1 ∧
    targetMROAS ≤ marginalAt pf params seasonalFactor
      (findOptimalSpend pf targetMROAS params maxSpend seasonalFactor).optimalSpend ∧
    targetMROAS ≤ (findOptimalSpend pf targetMROAS params maxSpend seasonalFactor).mRoas ∧
    (bisectPair (marginalAt pf params seasonalFactor) targetMROAS
        ((peakPair (marginalAt pf params seasonalFactor) maxSpend).1, maxSpend) 60).2
      - (bisectPair (marginalAt pf params seasonalFactor) targetMROAS
          ((peakPair (marginalAt pf params seasonalFactor) maxSpend).1, maxSpend) 60).1
      = (maxSpend - (peakPair (marginalAt pf params seasonalFactor) maxSpend).1) / 2 ^ 60 ∧
    (bisectPair (marginalAt pf params seasonalFactor) targetMROAS
        ((peakPair (marginalAt pf params seasonalFactor) maxSpend).1, maxSpend) 60).2
      - (bisectPair (marginalAt pf params seasonalFactor) targetMROAS
          ((peakPair (marginalAt pf params seasonalFactor) maxSpend).1, maxSpend) 60).1
      ≤ maxSpend / 2 ^ 60 := by
  obtain ⟨q, hq, hqmem, hqbound⟩ := peakPair_spec (marginalAt pf params seasonalFactor) maxSpend
  by_cases hpk : (peakPair (marginalAt pf params seasonalFactor) maxSpend).2 < targetMROAS
  · exfalso
    have heq : (findOptimalSpend pf targetMROAS params maxSpend seasonalFactor).feasible
        = false := by
      simp only [findOptimalSpend]
      rw [if_pos hpk]
    rw [heq] at hfeas
    cases hfeas
  · have hfirst : (peakPair (marginalAt pf params seasonalFactor) maxSpend).1 = q := by
      rw [hq]
    have hsecond : (peakPair (marginalAt pf params seasonalFactor) maxSpend).2
        = marginalAt pf params seasonalFactor q := by
      rw [hq]
    have hlow0 : targetMROAS ≤ marginalAt pf params seasonalFactor
        ((peakPair (marginalAt pf params seasonalFactor) maxSpend).1, maxSpend).1 := by
      rw [hfirst]
      rw [hsecond] at hpk
      exact le_of_not_lt hpk
    have hlow := bisectPair_low (marginalAt pf params seasonalFactor) targetMROAS 60
      ((peakPair (marginalAt pf params seasonalFactor) maxSpend).1, maxSpend) hlow0
    have hwidth := bisectPair_width (marginalAt pf params seasonalFactor) targetMROAS 60
      ((peakPair (marginalAt pf params seasonalFactor) maxSpend).1, maxSpend)
    have hqb := samplePts_bounds maxSpend hms q hqmem
    have heq : findOptimalSpend pf targetMROAS params maxSpend seasonalFactor =
        { optimalSpend := (bisectPair (marginalAt pf params seasonalFactor) targetMROAS
            ((peakPair (marginalAt pf params seasonalFactor) maxSpend).1, maxSpend) 60).1,
          expectedRevenue := hillY pf (bisectPair (marginalAt pf params seasonalFactor)
            targetMROAS ((peakPair (marginalAt pf params seasonalFactor) maxSpend).1,
              maxSpend) 60).1 params * seasonalFactor,
          mRoas := marginalAt pf params seasonalFactor
            (bisectPair (marginalAt pf params seasonalFactor) targetMROAS
              ((peakPair (marginalAt pf params seasonalFactor) maxSpend).1, maxSpend) 60).1,
          totalRoas := hillY pf (bisectPair (marginalAt pf params seasonalFactor)
              targetMROAS ((peakPair (marginalAt pf params seasonalFactor) maxSpend).1,
                maxSpend) 60).1 params * seasonalFactor
            / max (bisectPair (marginalAt pf params seasonalFactor) targetMROAS
                ((peakPair (marginalAt pf params seasonalFactor) maxSpend).1, maxSpend) 60).1 1,
          feasible := true } := by
      simp only [findOptimalSpend]
      rw [if_neg hpk]
    refine ⟨by rw [heq], ?_, ?_, hwidth, ?_⟩
    · rw [heq]
      exact hlow
    · rw [heq]
      exact hlow
    · rw [hwidth, hfirst]
      have h2 : (0 : ℚ) < 2 ^ 60 := by positivity
      exact (div_le_div_iff_of_pos_right h2).mpr (by linarith [hqb.1])

/-- When the marginal curve strictly increases along the scanned samples, the
peak scan ends at the last sample. -/
lemma scanStep_chain (m : ℚ → ℚ) :
    ∀ (pts : List ℚ) (p : ℚ), List.Chain (fun a b => m a < m b) p pts →
      pts.foldl (scanStep m) (some (p, m p))
        = some (pts.getLastD p, m (pts.getLastD p)) := by
  intro pts
  induction pts with
  | nil => intro p _; rfl
  | cons s rest ih =>
    intro p hch
    cases hch with
    | cons hps hrest =>
      rw [List.foldl_cons,
        show scanStep m (some (p, m p)) s = some (s, m s) by simp [scanStep, hps],
        ih s hrest, List.getLastD_cons]

/-- The bound-expansion loop multiplies the start by `1.8 = 9/5` some number
of times bounded by the fuel, and when it stops before exhausting the fuel
the loop condition has failed at the returned value. -/
lemma autoBoundLoop_spec (mAt : ℚ → ℚ) (required hiMax : ℚ) :
    ∀ (n : ℕ) (hi : ℚ), ∃ k, k ≤ n ∧
      autoBoundLoop mAt required hiMax hi n = hi * (9 / 5) ^ k ∧
      (k < n → ¬(mAt (hi * (9 / 5) ^ k) > required ∧ hi * (9 / 5) ^ k < hiMax)) := by
  intro n
  induction n with
  | zero =>
    intro hi
    exact ⟨0, le_refl 0, by simp [autoBoundLoop], by omega⟩
  | succ nn ih =>
    intro hi
    by_cases h : mAt hi > required ∧ hi < hiMax
    · obtain ⟨k, hk, heq, hpost⟩ := ih (hi * 1.8)
      refine ⟨k + 1, by omega, ?_, ?_⟩
      · rw [show autoBoundLoop mAt required hiMax hi (nn + 1)
            = autoBoundLoop mAt required hiMax (hi * 1.8) nn by
              rw [autoBoundLoop]; rw [if_pos h]]
        rw [heq]
        rw [show (1.8 : ℚ) = 9 / 5 by norm_num]
        ring
      · intro hlt
        have hpost2 := hpost (by omega)
        have harith : hi * 1.8 * (9 / 5) ^ k = hi * (9 / 5) ^ (k + 1) := by
          rw [show (1.8 : ℚ) = 9 / 5 by norm_num]
          ring
        rw [harith] at hpost2
        exact hpost2
    · refine ⟨0, Nat.zero_le _, ?_, ?_⟩
      · rw [autoBoundLoop, if_neg h]
        ring
      · intro _
        simpa using h

/-- **C5** (amended).  `autoBound` never exceeds the ceiling
`max(50·max(maxObservedSpend, 1), 20·K)` — note the source floors the
observed maximum spend at 1 (`Math.max(...X, 1)`) before scaling — and the
returned bound is `min(hi₀ · 1.8^k, ceiling)` for some `k ≤ 32`, where
`hi₀ = max(2·max(maxObservedSpend, 1), 4·K, 1)`; when fewer than 32
doublings happened, the loop stopped because the marginal return dropped to
the target or the ceiling was reached. -/
theorem c5_autoBound_bounded (pf : ℚ → ℚ → ℚ) (X : List ℚ) (params : HillParams)
    (required factorNow : ℚ) :
    autoBound pf X params required factorNow
      ≤ max (50 * jsMax X 1) (20 * params.K) ∧
    ∃ k, k ≤ 32 ∧
      autoBound pf X params required factorNow
        = min (max (max (2 * jsMax X 1) (4 * params.K)) 1 * (9 / 5) ^ k)
            (max (50 * jsMax X 1) (20 * params.K)) ∧
      (k < 32 →
        ¬(marginalAt pf params factorNow
            (max (max (2 * jsMax X 1) (4 * params.K)) 1 * (9 / 5) ^ k) > required ∧
          max (max (2 * jsMax X 1) (4 * params.K)) 1 * (9 / 5) ^ k
            < max (50 * jsMax X 1) (20 * params.K))) := by
  obtain ⟨k, hk, heq, hpost⟩ := autoBoundLoop_spec (marginalAt pf params factorNow)
    required (max (50 * jsMax X 1) (20 * params.K)) 32
    (max (max (2 * jsMax X 1) (4 * params.K)) 1)
  constructor
  · rw [autoBound]
    exact min_le_right _ _
  · exact ⟨k, hk, by rw [autoBound, heq], hpost⟩

/-- **C5** witness: instantiation of the ceiling bound at a concrete input. -/
theorem c5_witness :
    autoBound pfZero [1] ⟨1, 1, 1⟩ 5 1
      ≤ max (50 * jsMax [1] 1) (20 * (⟨1, 1, 1⟩ : HillParams).K) :=
  (c5_autoBound_bounded pfZero [1] ⟨1, 1, 1⟩ 5 1).1

/-- **C5** counterexample: with a single observed spend of `1/2` the source
floors the observed maximum at 1, so the search (driven to its ceiling by a
always-satisfied target) returns `50 = 50 · max(maxObservedSpend, 1)`, which
exceeds the claimed ceiling `max(50 · maxObservedSpend, 20 · K) = 25`. -/
theorem c5_counterexample :
    autoBound pfZero [1 / 2] ⟨1, 1, 1 / 10⟩ (-1) 1
      > max (50 * (1 / 2 : ℚ)) (20 * (1 / 10 : ℚ)) := by
  have hmax : jsMax [(1 / 2 : ℚ)] 1 = 1 := by
    simp only [jsMax, List.foldl_cons, List.foldl_nil]
    rw [max_eq_left (by norm_num)]
  have hm : ∀ s : ℚ, marginalAt pfZero ⟨1, 1, 1 / 10⟩ 1 s = 0 := fun s => by
    rw [marginalAt, hillDY_pfZero, zero_mul]
  rw [autoBound, hmax]
  rw [show max (max (2 * (1 : ℚ)) (4 * (⟨1, 1, 1 / 10⟩ : HillParams).K)) 1 = 2 by
    norm_num]
  rw [show max (50 * (1 : ℚ)) (20 * (⟨1, 1, 1 / 10⟩ : HillParams).K) = 50 by norm_num]
  rw [show autoBoundLoop (marginalAt pfZero ⟨1, 1, 1 / 10⟩ 1) (-1) 50 2 32
      = 1062882 / 15625 by
    rw [autoBoundLoop, if_pos (by rw [hm]; norm_num)]
    rw [autoBoundLoop, if_pos (by rw [hm]; norm_num)]
    rw [autoBoundLoop, if_pos (by rw [hm]; norm_num)]
    rw [autoBoundLoop, if_pos (by rw [hm]; norm_num)]
    rw [autoBoundLoop, if_pos (by rw [hm]; norm_num)]
    rw [autoBoundLoop, if_pos (by rw [hm]; norm_num)]
    rw [autoBoundLoop, if_neg (by rw [hm]; norm_num)]
    norm_num]
  norm_num

/-- The grid-search fold, started from an initialised best pair, returns the
first minimiser of the objective among the seed and the scanned
combinations (strict-less comparison keeps the earlier combination on
ties). -/
lemma fitFold_min (f : HillParams → ℚ) :
    ∀ (ps : List HillParams) (b : HillParams),
      ∃ r, ps.foldl (fitStep f) (b, some (f b)) = (r, some (f r)) ∧
        (r = b ∨ r ∈ ps) ∧ f r ≤ f b ∧ (∀ q ∈ ps, f r ≤ f q) ∧
        ∃ l1 l2, b :: ps = l1 ++ r :: l2 ∧ ∀ q ∈ l1, f r < f q := by
  intro ps
  induction ps with
  | nil =>
    intro b
    exact ⟨b, rfl, Or.inl rfl, le_refl _, by simp, [], [], rfl, by simp⟩
  | cons u ps ih =>
    intro b
    rw [List.foldl_cons]
    by_cases h : f u < f b
    · rw [show fitStep f (b, some (f b)) u = (u, some (f u)) by simp [fitStep, h]]
      obtain ⟨r, heq, hmem, hrb, hall, l1, l2, hdec, hstrict⟩ := ih u
      refine ⟨r, heq, ?_, le_trans hrb (le_of_lt h), ?_, b :: l1, l2, ?_, ?_⟩
      · rcases hmem with h1 | h1
        · exact Or.inr (h1 ▸ List.mem_cons_self u ps)
        · exact Or.inr (List.mem_cons_of_mem u h1)
      · intro q hq
        rcases List.mem_cons.mp hq with rfl | hq
        · exact hrb
        · exact hall q hq
      · rw [List.cons_append, ← hdec]
      · intro q hq
        rcases List.mem_cons.mp hq with rfl | hq
        · exact lt_of_le_of_lt hrb h
        · exact hstrict q hq
    · rw [show fitStep f (b, some (f b)) u = (b, some (f b)) by simp [fitStep, h]]
      obtain ⟨r, heq, hmem, hrb, hall, l1, l2, hdec, hstrict⟩ := ih b
      have hfu : f b ≤ f u := le_of_not_lt h
      refine ⟨r, heq, ?_, hrb, ?_, ?_⟩
      · rcases hmem with h1 | h1
        · exact Or.inl h1
        · exact Or.inr (List.mem_cons_of_mem u h1)
      · intro q hq
        rcases List.mem_cons.mp hq with rfl | hq
        · exact le_trans hrb hfu
        · exact hall q hq
      · cases l1 with
        | nil =>
          simp only [List.nil_append] at hdec
          injection hdec with h1 h2
          exact ⟨[], u :: ps, by rw [← h1]; simp, by simp⟩
        | cons x t =>
          simp only [List.cons_append] at hdec
          injection hdec with hx hrest
          have hxb : f r < f b := by
            have := hstrict x (List.mem_cons_self x t)
            rw [← hx] at this
            exact this
          refine ⟨b :: u :: t, l2, ?_, ?_⟩
          · rw [hrest]
            simp [List.cons_append]
          · intro q hq
            rcases List.mem_cons.mp hq with rfl | hq
            · exact hxb
            · rcases List.mem_cons.mp hq with rfl | hq
              · exact lt_of_lt_of_le hxb hfu
              · exact hstrict q (List.mem_cons_of_mem x hq)

/-- The first grid combination always replaces the `bestSSE = Infinity`
initialisation, so the fold from `none` is the fold initialised at the first
combination. -/
lemma fitFold_none (f : HillParams → ℚ) (d g : HillParams) (gs : List HillParams) :
    ∃ r, (g :: gs).foldl (fitStep f) (d, none) = (r, some (f r)) ∧
      r ∈ g :: gs ∧ (∀ q ∈ g :: gs, f r ≤ f q) ∧
      ∃ l1 l2, g :: gs = l1 ++ r :: l2 ∧ ∀ q ∈ l1, f r < f q := by
  rw [List.foldl_cons, show fitStep f (d, none) g = (g, some (f g)) from rfl]
  obtain ⟨r, heq, hmem, hrg, hall, l1, l2, hdec, hstrict⟩ := fitFold_min f gs g
  refine ⟨r, heq, ?_, ?_, l1, l2, hdec, hstrict⟩
  · rcases hmem with h1 | h1
    · exact h1 ▸ List.mem_cons_self g gs
    · exact List.mem_cons_of_mem g h1
  · intro q hq
    rcases List.mem_cons.mp hq with rfl | hq
    · exact hrg
    · exact hall q hq

/-- Folding over a `flatMap` is the nested fold. -/
lemma foldl_flatMap_gen {α β σ : Type} (g : α → List β) (step : σ → β → σ) :
    ∀ (l : List α) (i : σ),
      (l.flatMap g).foldl step i = l.foldl (fun a x => (g x).foldl step a) i := by
  intro l
  induction l with
  | nil => intro i; rfl
  | cons x xs ih =>
    intro i
    rw [List.flatMap_cons, List.foldl_append, ih, List.foldl_cons]

/-- The three nested grid loops of `fitHillModel` are the single fold over
the flattened 75-point grid, in enumeration order. -/
lemma foldl_flatMap_fit (f : HillParams → ℚ) (alphas gammas Ks : List ℚ)
    (init : HillParams × Option ℚ) :
    alphas.foldl (fun acc alpha => gammas.foldl (fun acc gamma =>
        Ks.foldl (fun acc K => fitStep f acc ⟨alpha, gamma, K⟩) acc) acc) init
      = (alphas.flatMap (fun alpha => gammas.flatMap (fun gamma =>
          Ks.map (fun K => (⟨alpha, gamma, K⟩ : HillParams))))).foldl
            (fitStep f) init := by
  simp only [foldl_flatMap_gen, List.foldl_map]

lemma fitHillModel_eq_gridFold (pf : ℚ → ℚ → ℚ) (spend revenue : List ℚ)
    (weights : Option (List ℚ)) :
    fitHillModel pf spend revenue weights
      = ((hillGrid spend revenue).foldl
          (fitStep (sseOf pf spend revenue weights)) (fitInit spend revenue, none)).1 := by
  simp only [fitHillModel, hillGrid, fitInit]
  rw [foldl_flatMap_fit]

lemma hillGrid_length (spend revenue : List ℚ) : (hillGrid spend revenue).length = 75 := by
  simp [hillGrid]

/-- **C6**.  With the time-box never firing, `fitHillModel` returns a member
of the 75-point grid whose weighted SSE is minimal over the whole grid, and
on exact ties the first combination in enumeration order (`alpha` outer,
`gamma` middle, `K` inner) wins: every strictly earlier grid point has
strictly larger SSE. -/
theorem c6_fit_first_argmin (pf : ℚ → ℚ → ℚ) (spend revenue : List ℚ)
    (weights : Option (List ℚ)) :
    (hillGrid spend revenue).length = 75 ∧
    fitHillModel pf spend revenue weights ∈ hillGrid spend revenue ∧
    (∀ p ∈ hillGrid spend revenue,
      sseOf pf spend revenue weights (fitHillModel pf spend revenue weights)
        ≤ sseOf pf spend revenue weights p) ∧
    ∃ l1 l2, hillGrid spend revenue
        = l1 ++ fitHillModel pf spend revenue weights :: l2 ∧
      ∀ p ∈ l1, sseOf pf spend revenue weights (fitHillModel pf spend revenue weights)
        < sseOf pf spend revenue weights p := by
  rcases hgrid : hillGrid spend revenue with _ | ⟨g, gs⟩
  · exact absurd (by rw [hgrid]; rfl : (hillGrid spend revenue).length = 0)
      (by rw [hillGrid_length]; omega)
  · obtain ⟨r, heq, hmem, hall, l1, l2, hdec, hstrict⟩ :=
      fitFold_none (sseOf pf spend revenue weights) (fitInit spend revenue) g gs
    have hfit : fitHillModel pf spend revenue weights = r := by
      rw [fitHillModel_eq_gridFold, hgrid, heq]
    have hlen : (g :: gs).length = 75 := by
      rw [← hgrid]
      exact hillGrid_length spend revenue
    rw [hfit]
    exact ⟨hlen, hmem, hall, l1, l2, hdec, hstrict⟩

/-- **C6** witness: concrete instantiation; the membership hypothesis of the
minimality clause is discharged with the returned parameters themselves. -/
theorem c6_witness :
    fitHillModel pfZero [1, 2, 4] [10, 20, 30] none ∈ hillGrid [1, 2, 4] [10, 20, 30] ∧
    sseOf pfZero [1, 2, 4] [10, 20, 30] none
        (fitHillModel pfZero [1, 2, 4] [10, 20, 30] none)
      ≤ sseOf pfZero [1, 2, 4] [10, 20, 30] none
          (fitHillModel pfZero [1, 2, 4] [10, 20, 30] none) :=
  ⟨(c6_fit_first_argmin pfZero [1, 2, 4] [10, 20, 30] none).2.1,
   (c6_fit_first_argmin pfZero [1, 2, 4] [10, 20, 30] none).2.2.1
     (fitHillModel pfZero [1, 2, 4] [10, 20, 30] none)
     (c6_fit_first_argmin pfZero [1, 2, 4] [10, 20, 30] none).2.1⟩

/-- The keys of the grouping are unchanged when the row's key is already
present, and gain the new key at the end otherwise. -/
lemma groupStep_keys (acc : List (String × List ROASData)) (row : ROASData) :
    (groupStep acc row).map Prod.fst
      = if acc.any (fun p => p.1 = jsOrS row.asin "UNKNOWN") then acc.map Prod.fst
        else acc.map Prod.fst ++ [jsOrS row.asin "UNKNOWN"] := by
  rw [groupStep]
  by_cases h : acc.any (fun p => p.1 = jsOrS row.asin "UNKNOWN") = true
  · rw [if_pos h, if_pos h, List.map_map]
    apply List.map_congr_left
    intro p _
    by_cases hp : p.1 = jsOrS row.asin "UNKNOWN" <;> simp [hp]
  · rw [if_neg h, if_neg h]
    simp

/-- Grouping keys stay distinct throughout the fold. -/
lemma groupFold_keys_nodup :
    ∀ (data : List ROASData) (acc : List (String × List ROASData)),
      (acc.map Prod.fst).Nodup → ((data.foldl groupStep acc).map Prod.fst).Nodup := by
  intro data
  induction data with
  | nil => intro acc h; exact h
  | cons row rest ih =>
    intro acc h
    rw [List.foldl_cons]
    apply ih
    rw [groupStep_keys]
    by_cases hc : acc.any (fun p => p.1 = jsOrS row.asin "UNKNOWN") = true
    · rw [if_pos hc]; exact h
    · rw [if_neg hc]
      have hkey : jsOrS row.asin "UNKNOWN" ∉ acc.map Prod.fst := by
        intro hmem
        apply hc
        obtain ⟨p, hp, hp1⟩ := List.mem_map.mp hmem
        simp only [List.any_eq_true, decide_eq_true_eq]
        exact ⟨p, hp, hp1⟩
      exact List.Nodup.append h (List.nodup_singleton _) (by simpa using hkey)

/-- Keys already discovered are never dropped by the fold. -/
lemma groupFold_keys_mono :
    ∀ (data : List ROASData) (acc : List (String × List ROASData)),
      acc.map Prod.fst ⊆ (data.foldl groupStep acc).map Prod.fst := by
  intro data
  induction data with
  | nil => intro acc x h; exact h
  | cons row rest ih =>
    intro acc
    rw [List.foldl_cons]
    refine List.Subset.trans ?_ (ih (groupStep acc row))
    rw [groupStep_keys]
    by_cases hc : acc.any (fun p => p.1 = jsOrS row.asin "UNKNOWN") = true
    · rw [if_pos hc]
      exact List.Subset.refl _
    · rw [if_neg hc]
      exact List.subset_append_left _ _

/-- Every observation's (defaulted) entity key appears among the grouping
keys. -/
lemma groupFold_covers :
    ∀ (data : List ROASData) (acc : List (String × List ROASData)) (row : ROASData),
      row ∈ data →
      jsOrS row.asin "UNKNOWN" ∈ (data.foldl groupStep acc).map Prod.fst := by
  intro data
  induction data with
  | nil => intro acc row h; cases h
  | cons x rest ih =>
    intro acc row h
    rw [List.foldl_cons]
    rcases List.mem_cons.mp h with rfl | h
    · apply groupFold_keys_mono rest (groupStep acc row)
      rw [groupStep_keys]
      by_cases hc : acc.any (fun p => p.1 = jsOrS row.asin "UNKNOWN") = true
      · rw [if_pos hc]
        simp only [List.any_eq_true, decide_eq_true_eq] at hc
        obtain ⟨p, hp, hp1⟩ := hc
        exact List.mem_map.mpr ⟨p, hp, hp1⟩
      · rw [if_neg hc]
        simp
    · exact ih _ row h

/-- Every portfolio row carries the key of its entity group. -/
lemma processASIN_asin (env : JsEnv) (ms : MarginSettings) (st : OptimizationSettings)
    (key : String) (dat : List ROASData) :
    (processASIN env ms st key dat).asin = key := by
  rw [processASIN]
  rcases h : processASINtry env ms st key dat with e | row
  · rfl
  · simp only [processASINtry] at h
    split at h
    · injection h with h2
      rw [← h2]
    · split at h
      · injection h with h2
        rw [← h2]
      · split at h
        · cases h
        · injection h with h2
          rw [← h2]

/-- `getD` through a `map`. -/
lemma getD_map {α β : Type} (f : α → β) (l : List α) (i : ℕ) (d : β) (d0 : α)
    (h : i < l.length) : (l.map f).getD i d = f (l.getD i d0) := by
  rw [List.getD_eq_getElem?_getD, List.getD_eq_getElem?_getD, List.getElem?_map]
  rw [List.getElem?_eq_getElem h]
  rfl

/-- **C2**.  `optimizePortfolio` is total and returns exactly one row per
distinct entity group (missing ids mapping to `UNKNOWN`), in group-discovery
order; a group whose processing raises is recorded as an
`action = "Error: <message>"`, `feasible = false` row in its position, with
all other groups still processed. -/
theorem c2_portfolio_isolation (env : JsEnv) (data : List ROASData)
    (ms : MarginSettings) (st : OptimizationSettings) :
    (optimizePortfolio env data ms st).length = (groupByAsin data).length ∧
    ((groupByAsin data).map Prod.fst).Nodup ∧
    (∀ row ∈ data, jsOrS row.asin "UNKNOWN" ∈ (groupByAsin data).map Prod.fst) ∧
    (∀ i, i < (groupByAsin data).length →
      ((optimizePortfolio env data ms st).getD i default).asin
        = ((groupByAsin data).getD i ("", [])).1) ∧
    (∀ i, i < (groupByAsin data).length → ∀ e,
      processASINtry env ms st ((groupByAsin data).getD i ("", [])).1
          ((groupByAsin data).getD i ("", [])).2 = .error e →
      (optimizePortfolio env data ms st).getD i default
        = { asin := ((groupByAsin data).getD i ("", [])).1,
            action := "Error: " ++ e, feasible := false }) := by
  refine ⟨?_, ?_, ?_, ?_, ?_⟩
  · rw [optimizePortfolio, List.length_map]
  · rw [groupByAsin]
    exact groupFold_keys_nodup data [] (by simp)
  · intro row hrow
    rw [groupByAsin]
    exact groupFold_covers data [] row hrow
  · intro i hi
    rw [optimizePortfolio, getD_map _ _ i default ("", []) hi]
    exact processASIN_asin env ms st _ _
  · intro i hi e herr
    rw [optimizePortfolio, getD_map _ _ i default ("", []) hi]
    rw [processASIN, herr]

/-- **C2** witness: a two-entity portfolio returns two rows, the first
carrying the first discovered key. -/
theorem c2_witness :
    (optimizePortfolio envZero [rowW1, rowW2] msBase stPlain).length
      = (groupByAsin [rowW1, rowW2]).length ∧
    ((optimizePortfolio envZero [rowW1, rowW2] msBase stPlain).getD 0 default).asin
      = ((groupByAsin [rowW1, rowW2]).getD 0 ("", [])).1 :=
  ⟨(c2_portfolio_isolation envZero [rowW1, rowW2] msBase stPlain).1,
   (c2_portfolio_isolation envZero [rowW1, rowW2] msBase stPlain).2.2.2.1 0 (by decide)⟩

lemma insertByDate_length (r : ROASData) :
    ∀ l : List ROASData, (insertByDate r l).length = l.length + 1 := by
  intro l
  induction l with
  | nil => rfl
  | cons x xs ih =>
    rw [insertByDate]
    by_cases h : dateLe r.date x.date = true
    · rw [if_pos h]
      rfl
    · rw [if_neg h]
      simp [ih]

lemma sortByDate_length (l : List ROASData) : (sortByDate l).length = l.length := by
  rw [sortByDate]
  induction l with
  | nil => rfl
  | cons x xs ih =>
    rw [List.foldr_cons, insertByDate_length, ih, List.length_cons]

/-- The organic-share field of a successfully processed entity row, exactly
as the source computes it: the `totalRevenue` sum ranges over observations
with the field present, but the `adRevenue` sum ranges over *all*
observations of the group. -/
lemma processASIN_organicShare (env : JsEnv) (ms : MarginSettings)
    (st : OptimizationSettings) (key : String) (dat : List ROASData)
    (h3 : 3 ≤ dat.length)
    (hcm : 0 < portfolioCM ((sortByDate dat).headD default) ms) :
    (processASIN env ms st key dat).organicShare
      = (if ((sortByDate dat).filter (fun d => d.total_sales ≠ none)).foldl
            (fun s d => s + d.total_sales.getD 0) 0 > (0 : ℚ)
         then some ((((sortByDate dat).filter (fun d => d.total_sales ≠ none)).foldl
              (fun s d => s + d.total_sales.getD 0) 0
            - (sortByDate dat).foldl (fun s d => s + d.ad_sales) 0)
            / ((sortByDate dat).filter (fun d => d.total_sales ≠ none)).foldl
                (fun s d => s + d.total_sales.getD 0) 0 * 100)
         else none) := by
  obtain ⟨r, hr⟩ := optimizeSingleASIN_ok env (sortByDate dat)
    { ms with contributionMargin := portfolioCM ((sortByDate dat).headD default) ms * 100,
              requiredMROAS := 1 / portfolioCM ((sortByDate dat).headD default) ms } st
    (by rw [sortByDate_length]; exact h3)
  rw [processASIN]
  simp only [processASINtry]
  rw [if_neg (by omega : ¬ dat.length < 3)]
  rw [if_neg (not_le.mpr hcm)]
  rw [hr]

lemma foldl_add_map {α : Type} (f : α → ℚ) :
    ∀ (l : List α) (c : ℚ), l.foldl (fun s d => s + f d) c = c + (l.map f).sum := by
  intro l
  induction l with
  | nil => intro c; simp
  | cons x xs ih =>
    intro c
    rw [List.foldl_cons, List.map_cons, List.sum_cons, ih]
    ring

/-- **C4** (amended).  For every entity group with at least 3 observations
and a positive resolved margin, the reported organic share equals
`(Σ_present totalRevenue − Σ_all adRevenue) / Σ_present totalRevenue × 100`,
where the `totalRevenue` sum ranges only over observations with the field
present (zero included) but the `adRevenue` sum ranges over *all*
observations of the group; it is `none` whenever the `totalRevenue` sum is
not positive. -/
theorem c4_organic_share (env : JsEnv) (ms : MarginSettings)
    (st : OptimizationSettings) (key : String) (dat : List ROASData)
    (h3 : 3 ≤ dat.length)
    (hcm : 0 < portfolioCM ((sortByDate dat).headD default) ms) :
    (processASIN env ms st key dat).organicShare
      = (if 0 < (((sortByDate dat).filter (fun d => d.total_sales ≠ none)).map
              (fun d => d.total_sales.getD 0)).sum
         then some ((((((sortByDate dat).filter (fun d => d.total_sales ≠ none)).map
                (fun d => d.total_sales.getD 0)).sum
              - ((sortByDate dat).map (fun d => d.ad_sales)).sum)
              / (((sortByDate dat).filter (fun d => d.total_sales ≠ none)).map
                  (fun d => d.total_sales.getD 0)).sum) * 100)
         else none) := by
  rw [processASIN_organicShare env ms st key dat h3 hcm]
  simp only [foldl_add_map, zero_add]

/-- **C4** counterexample: a group of three observations where one row has
no `total_sales` but `ad_sales = 50`.  The code reports
`(200 − 70)/200 × 100 = 65` (its `adRevenue` sum includes the row without
`totalRevenue`), while the claimed both-sums-restricted formula gives
`(200 − 20)/200 × 100 = 90`. -/
theorem c4_counterexample :
    ((optimizePortfolio envZero [rowO1, rowO2, rowO3] msBase stPlain).getD 0
        default).organicShare = some 65 ∧
    organicShareClaim (sortByDate [rowO1, rowO2, rowO3]) = some 90 ∧
    (65 : ℚ) ≠ 90 := by
  have hgroup : groupByAsin [rowO1, rowO2, rowO3] = [("A", [rowO1, rowO2, rowO3])] := by
    decide
  have hsort : sortByDate [rowO1, rowO2, rowO3] = [rowO1, rowO2, rowO3] := by decide
  have hcm : 0 < portfolioCM ((sortByDate [rowO1, rowO2, rowO3]).headD default) msBase := by
    rw [hsort]
    simp only [portfolioCM, rowO1, List.headD_cons]
    norm_num [msBase]
  have hfil : [rowO1, rowO2, rowO3].filter (fun d => d.total_sales ≠ none)
      = [rowO1, rowO2] := by decide
  refine ⟨?_, ?_, by norm_num⟩
  · rw [optimizePortfolio, hgroup, List.map_cons, List.map_nil, List.getD_cons_zero]
    rw [c4_organic_share envZero msBase stPlain "A" [rowO1, rowO2, rowO3] (by decide) hcm]
    rw [hsort, hfil]
    norm_num [rowO1, rowO2, rowO3, List.sum_cons]
  · rw [hsort, organicShareClaim]
    simp only [hfil]
    norm_num [rowO1, rowO2, rowO3, List.sum_cons]
    exact fun h => absurd h (by simp)

/-- **C4** witness: instantiation of the amended organic-share formula at a
concrete 3-observation group with a positive resolved margin. -/
theorem c4_witness :
    3 ≤ ([rowD1, rowD2, rowD3] : List ROASData).length ∧
    0 < portfolioCM ((sortByDate [rowD1, rowD2, rowD3]).headD default) msBase ∧
    (processASIN envZero msBase stPlain "A" [rowD1, rowD2, rowD3]).organicShare
      = (if 0 < (((sortByDate [rowD1, rowD2, rowD3]).filter
              (fun d => d.total_sales ≠ none)).map (fun d => d.total_sales.getD 0)).sum
         then some ((((((sortByDate [rowD1, rowD2, rowD3]).filter
                (fun d => d.total_sales ≠ none)).map (fun d => d.total_sales.getD 0)).sum
              - ((sortByDate [rowD1, rowD2, rowD3]).map (fun d => d.ad_sales)).sum)
              / (((sortByDate [rowD1, rowD2, rowD3]).filter
                  (fun d => d.total_sales ≠ none)).map (fun d => d.total_sales.getD 0)).sum)
              * 100)
         else none) := by
  have hsort : sortByDate [rowD1, rowD2, rowD3] = [rowD1, rowD2, rowD3] := by decide
  have hcm : 0 < portfolioCM ((sortByDate [rowD1, rowD2, rowD3]).headD default) msBase := by
    rw [hsort]
    simp only [portfolioCM, rowD1, List.headD_cons]
    norm_num [msBase]
  exact ⟨by decide, hcm,
    c4_organic_share envZero msBase stPlain "A" [rowD1, rowD2, rowD3] (by decide) hcm⟩

lemma list_sum_map_mul_right (l : List ℝ) (c : ℝ) :
    (l.map (fun w => w * c)).sum = l.sum * c := by
  induction l with
  | nil => simp
  | cons a t ih => simp [ih, add_mul]

/-- **C8**.  For every `n ≥ 1` and `recencyFactor ∈ [0, 1]`, the recency
weights `((i+1)/n)^(1+4·recencyFactor)` rescaled by `n / sum` have mean
exactly `1` (idealised real-exponentiation model). -/
theorem c8_recency_weights_mean (n : ℕ) (recencyFactor : ℝ) (hn : 1 ≤ n)
    (_h0 : 0 ≤ recencyFactor) (_h1 : recencyFactor ≤ 1) :
    (generateRecencyWeightsR n recencyFactor).sum / (n : ℝ) = 1 := by
  have hnR : (0 : ℝ) < n := by exact_mod_cast hn
  simp only [generateRecencyWeightsR]
  set e : ℝ := 1 + 4 * recencyFactor with he
  set ws : List ℝ := (List.range n).map (fun (i : ℕ) => (((i : ℝ) + 1) / (n : ℝ)) ^ e)
    with hws
  have hpos : ∀ w ∈ ws, 0 < w := by
    intro w hw
    rw [hws] at hw
    obtain ⟨i, _, rfl⟩ := List.mem_map.mp hw
    apply Real.rpow_pos_of_pos
    positivity
  have hne : ws ≠ [] := by
    rw [hws]
    intro hemp
    have hlen := congrArg List.length hemp
    simp at hlen
    omega
  have hsum : 0 < ws.sum := List.sum_pos ws hpos hne
  have hfun : (fun w => w * (n : ℝ) / (ws.foldl (· + ·) 0))
      = fun w => w * ((n : ℝ) / ws.sum) := by
    funext w
    rw [← List.sum_eq_foldl]
    ring
  rw [hfun, list_sum_map_mul_right]
  field_simp

/-- **C8** witness: `n = 3`, `recencyFactor = 1/2`. -/
theorem c8_witness :
    (1 : ℕ) ≤ 3 ∧ (0 : ℝ) ≤ 1 / 2 ∧ (1 / 2 : ℝ) ≤ 1 ∧
    (generateRecencyWeightsR 3 (1 / 2)).sum / (3 : ℝ) = 1 :=
  ⟨by norm_num, by norm_num, by norm_num,
   c8_recency_weights_mean 3 (1 / 2) (by norm_num) (by norm_num) (by norm_num)⟩

/-- **C9**.  For positive `alpha`, `gamma`, `K` the Hill response satisfies
`value 0 = 0`, is strictly increasing on nonnegative spends, stays strictly
below `alpha` there, and tends to `alpha` as spend grows (idealised real
model of `hillY`). -/
theorem c9_response_curve_shape (params : HillParamsR) (ha : 0 < params.alpha)
    (hg : 0 < params.gamma) (hK : 0 < params.K) :
    hillYR 0 params = 0 ∧
    StrictMonoOn (fun x => hillYR x params) (Set.Ici 0) ∧
    (∀ x, 0 ≤ x → hillYR x params < params.alpha) ∧
    Filter.Tendsto (fun x => hillYR x params) Filter.atTop (nhds params.alpha) := by
  have hK2 : (0 : ℝ) < max params.K epsClampR := lt_max_of_lt_left hK
  refine ⟨?_, ?_, ?_, ?_⟩
  · simp only [hillYR]
    rw [zero_div, Real.zero_rpow (ne_of_gt hg)]
    simp
  · intro x hx y _ hxy
    simp only [hillYR]
    have hx0 : (0 : ℝ) ≤ x := hx
    have hrx : 0 ≤ x / max params.K epsClampR := div_nonneg hx0 (le_of_lt hK2)
    have hrlt : x / max params.K epsClampR < y / max params.K epsClampR :=
      (div_lt_div_iff_of_pos_right hK2).mpr hxy
    have hplt := Real.rpow_lt_rpow hrx hrlt hg
    have hs0 : 0 ≤ (x / max params.K epsClampR) ^ params.gamma :=
      Real.rpow_nonneg hrx _
    have ht0 : 0 ≤ (y / max params.K epsClampR) ^ params.gamma :=
      Real.rpow_nonneg (le_trans hrx (le_of_lt hrlt)) _
    rw [div_lt_div_iff₀ (by linarith) (by linarith)]
    nlinarith
  · intro x hx
    simp only [hillYR]
    have hrx : 0 ≤ x / max params.K epsClampR := div_nonneg hx (le_of_lt hK2)
    have hs0 : 0 ≤ (x / max params.K epsClampR) ^ params.gamma :=
      Real.rpow_nonneg hrx _
    rw [div_lt_iff₀ (by linarith)]
    nlinarith
  · have h1 : Filter.Tendsto (fun x : ℝ => x / max params.K epsClampR)
        Filter.atTop Filter.atTop :=
      Filter.Tendsto.atTop_div_const hK2 Filter.tendsto_id
    have h2 : Filter.Tendsto (fun x : ℝ => (x / max params.K epsClampR) ^ params.gamma)
        Filter.atTop Filter.atTop := (tendsto_rpow_atTop hg).comp h1
    have h4 : Filter.Tendsto (fun s : ℝ => (1 + s)⁻¹) Filter.atTop (nhds 0) :=
      Filter.Tendsto.inv_tendsto_atTop
        (Filter.tendsto_atTop_add_const_left Filter.atTop 1 Filter.tendsto_id)
    have h5 : Filter.Tendsto (fun s : ℝ => params.alpha * (1 - (1 + s)⁻¹)) Filter.atTop
        (nhds (params.alpha * (1 - 0))) :=
      (Filter.Tendsto.const_sub 1 h4).const_mul params.alpha
    rw [sub_zero, mul_one] at h5
    have h3 : Filter.Tendsto (fun s : ℝ => params.alpha * s / (1 + s)) Filter.atTop
        (nhds params.alpha) := by
      refine h5.congr' ?_
      filter_upwards [Filter.eventually_ge_atTop (0 : ℝ)] with s hs
      have hne : (1 : ℝ) + s ≠ 0 := by linarith
      field_simp
    exact Filter.Tendsto.congr (fun x => rfl) (h3.comp h2)

/-- **C9** witness: `alpha = gamma = K = 1`. -/
theorem c9_witness :
    (0 : ℝ) < (1 : ℝ) ∧
    (hillYR 0 ⟨1, 1, 1⟩ = 0 ∧
     StrictMonoOn (fun x => hillYR x ⟨1, 1, 1⟩) (Set.Ici 0) ∧
     (∀ x, 0 ≤ x → hillYR x ⟨1, 1, 1⟩ < (⟨1, 1, 1⟩ : HillParamsR).alpha) ∧
     Filter.Tendsto (fun x => hillYR x ⟨1, 1, 1⟩) Filter.atTop
       (nhds (⟨1, 1, 1⟩ : HillParamsR).alpha)) :=
  ⟨by norm_num,
   c9_response_curve_shape ⟨1, 1, 1⟩ (by norm_num) (by norm_num) (by norm_num)⟩

/-- On a range where the marginal curve is strictly increasing, consecutive
samples of the 513-point scan form a strict chain. -/
lemma samplePts_chain_of_mono (m : ℚ → ℚ) (maxSpend : ℚ) (hms : 0 < maxSpend)
    (hmono : ∀ a b : ℚ, 0 ≤ a → a < b → b ≤ maxSpend → m a < m b) :
    List.Chain' (fun a b : ℚ => m a < m b) (samplePts maxSpend) := by
  rw [samplePts]
  refine (List.chain'_map _).mpr ?_
  refine (List.chain'_range_succ _ 512).mpr ?_
  intro i hi
  apply hmono
  · exact mul_nonneg (by positivity) (le_of_lt hms)
  · refine mul_lt_mul_of_pos_right ?_ hms
    refine (div_lt_div_iff_of_pos_right (by norm_num)).mpr ?_
    exact_mod_cast Nat.lt_succ_self i
  · have h1 : ((Nat.succ i : ℕ) : ℚ) / 512 ≤ 1 := by
      rw [div_le_one (by norm_num)]
      exact_mod_cast (by omega : Nat.succ i ≤ 512)
    calc ((Nat.succ i : ℕ) : ℚ) / 512 * maxSpend
        ≤ 1 * maxSpend := mul_le_mul_of_nonneg_right h1 (le_of_lt hms)
      _ = maxSpend := one_mul maxSpend

/-- The last of the 513 samples is the right endpoint `maxSpend`. -/
lemma samplePts_last (maxSpend : ℚ) :
    ((List.range 512).map (fun (i : ℕ) => ((Nat.succ i : ℕ) : ℚ) / 512 * maxSpend)).getLastD
      ((0 : ℚ) / 512 * maxSpend) = maxSpend := by
  rw [show (512 : ℕ) = 511 + 1 from rfl, List.range_succ, List.map_append]
  rw [List.map_cons, List.map_nil, List.getLastD_concat]
  norm_num

/-- When the marginal curve strictly increases on `[0, maxSpend]`, the peak
scan returns the right endpoint and its marginal value. -/
lemma peakPair_of_mono (m : ℚ → ℚ) (maxSpend : ℚ) (hms : 0 < maxSpend)
    (hmono : ∀ a b : ℚ, 0 ≤ a → a < b → b ≤ maxSpend → m a < m b) :
    peakPair m maxSpend = (maxSpend, m maxSpend) := by
  have hch := samplePts_chain_of_mono m maxSpend hms hmono
  rw [samplePts_eq_cons] at hch
  have hfold := scanStep_chain m
    ((List.range 512).map (fun (i : ℕ) => ((Nat.succ i : ℕ) : ℚ) / 512 * maxSpend))
    ((0 : ℚ) / 512 * maxSpend) hch
  rw [peakPair, samplePts_eq_cons, List.foldl_cons]
  rw [show scanStep m none ((0 : ℚ) / 512 * maxSpend)
      = some ((0 : ℚ) / 512 * maxSpend, m ((0 : ℚ) / 512 * maxSpend)) from rfl]
  rw [hfold, samplePts_last, Option.getD_some]

/-- With the exact integer-exponent oracle and parameters
`alpha = 2, gamma = 2, K = 1` the marginal curve is `4 s / (1 + s²)²` —
exactly what the source computes with `Math.pow` on this run. -/
lemma hillDY_pfPoly (s : ℚ) :
    hillDY pfPoly s ⟨2, 2, 1⟩ = 4 * s / ((1 + s * s) * (1 + s * s)) := by
  have hmax2 : max (2 : ℚ) epsClamp = 2 := max_eq_left (by norm_num [epsClamp])
  have hmax1 : max (1 : ℚ) epsClamp = 1 := max_eq_left (by norm_num [epsClamp])
  have hden : (0 : ℚ) < (1 + s * s) * (1 + s * s) := by nlinarith [mul_self_nonneg s]
  simp only [hillDY, pfPoly, hmax1, hmax2, div_one, one_mul]
  norm_num
  intro h
  nlinarith [mul_self_nonneg s]

lemma marginal_pfPoly (s : ℚ) :
    marginalAt pfPoly ⟨2, 2, 1⟩ 1 s = 4 * s / ((1 + s * s) * (1 + s * s)) := by
  rw [marginalAt, hillDY_pfPoly, mul_one]

/-- `4 s / (1 + s²)²` is strictly increasing on `[0, 1/2]` (the peak of the
curve is at `1/√3 > 1/2`). -/
lemma marginal_pfPoly_lt {a b : ℚ} (ha : 0 ≤ a) (hab : a < b) (hb : b ≤ 1 / 2) :
    marginalAt pfPoly ⟨2, 2, 1⟩ 1 a < marginalAt pfPoly ⟨2, 2, 1⟩ 1 b := by
  rw [marginal_pfPoly, marginal_pfPoly]
  have hb0 : 0 ≤ b := le_trans ha (le_of_lt hab)
  have ha2 : a ≤ 1 / 2 := le_trans (le_of_lt hab) hb
  have haa : a * a ≤ 1 / 4 := by nlinarith
  have hbb : b * b ≤ 1 / 4 := by nlinarith
  have habp : a * b ≤ 1 / 4 := by nlinarith
  have hab0 : (0 : ℚ) ≤ a * b := mul_nonneg ha hb0
  have hsum : a * a + a * b + b * b ≤ 3 / 4 := by linarith
  have hsum0 : (0 : ℚ) ≤ a * a + a * b + b * b := by
    nlinarith [mul_self_nonneg a, mul_self_nonneg b]
  have hprod : (a * b) * (a * a + a * b + b * b) ≤ (1 / 4) * (3 / 4) :=
    mul_le_mul habp hsum hsum0 (by norm_num)
  have hbracket : (0 : ℚ) < 1 - 2 * (a * b) - (a * b) * (a * a + a * b + b * b) := by
    linarith
  have hda : (0 : ℚ) < (1 + a * a) * (1 + a * a) := by nlinarith [mul_self_nonneg a]
  have hdb : (0 : ℚ) < (1 + b * b) * (1 + b * b) := by nlinarith [mul_self_nonneg b]
  rw [div_lt_div_iff₀ hda hdb]
  nlinarith [mul_pos (sub_pos.mpr hab) hbracket]

/-- On `[0, 1/2]` the peak scan lands on the right endpoint with marginal
value `4·(1/2)/(1+1/4)² = 32/25`. -/
lemma peakPair_pfPoly :
    peakPair (marginalAt pfPoly ⟨2, 2, 1⟩ 1) (1 / 2) = (1 / 2, 32 / 25) := by
  rw [peakPair_of_mono (marginalAt pfPoly ⟨2, 2, 1⟩ 1) (1 / 2) (by norm_num)
      (fun a b ha hab hb => marginal_pfPoly_lt ha hab hb)]
  rw [marginal_pfPoly]
  norm_num

/-- **C7** witness: instantiation at the concrete `gamma = 2` configuration
on `[0, 1/2]`, where the oracle agrees with exact `Math.pow`. -/
theorem c7_witness :
    (0 : ℚ) ≤ 1 / 2 ∧
    ((findOptimalSpend pfPoly 1 ⟨2, 2, 1⟩ (1 / 2) 1).feasible = true →
      (findOptimalSpend pfPoly 1 ⟨2, 2, 1⟩ (1 / 2) 1).optimalSpend
        = (bisectPair (marginalAt pfPoly ⟨2, 2, 1⟩ 1) 1
            ((peakPair (marginalAt pfPoly ⟨2, 2, 1⟩ 1) (1 / 2)).1, 1 / 2) 60).1 ∧
      (1 : ℚ) ≤ marginalAt pfPoly ⟨2, 2, 1⟩ 1
        (findOptimalSpend pfPoly 1 ⟨2, 2, 1⟩ (1 / 2) 1).optimalSpend ∧
      (1 : ℚ) ≤ (findOptimalSpend pfPoly 1 ⟨2, 2, 1⟩ (1 / 2) 1).mRoas ∧
      (bisectPair (marginalAt pfPoly ⟨2, 2, 1⟩ 1) 1
          ((peakPair (marginalAt pfPoly ⟨2, 2, 1⟩ 1) (1 / 2)).1, 1 / 2) 60).2
        - (bisectPair (marginalAt pfPoly ⟨2, 2, 1⟩ 1) 1
            ((peakPair (marginalAt pfPoly ⟨2, 2, 1⟩ 1) (1 / 2)).1, 1 / 2) 60).1
        = (1 / 2 - (peakPair (marginalAt pfPoly ⟨2, 2, 1⟩ 1) (1 / 2)).1) / 2 ^ 60 ∧
      (bisectPair (marginalAt pfPoly ⟨2, 2, 1⟩ 1) 1
          ((peakPair (marginalAt pfPoly ⟨2, 2, 1⟩ 1) (1 / 2)).1, 1 / 2) 60).2
        - (bisectPair (marginalAt pfPoly ⟨2, 2, 1⟩ 1) 1
            ((peakPair (marginalAt pfPoly ⟨2, 2, 1⟩ 1) (1 / 2)).1, 1 / 2) 60).1
        ≤ (1 / 2) / 2 ^ 60) :=
  ⟨by norm_num,
   fun hfeas => c7_bisection_convergence pfPoly 1 ⟨2, 2, 1⟩ (1 / 2) 1 (by norm_num) hfeas⟩

/-- **C7** counterexample, with the oracle agreeing with exact `Math.pow` on
every evaluated exponent (`gamma = 2`, so only `1` and `2` occur): the
marginal curve `4 s / (1 + s²)²` is strictly increasing on
`[0, maxSearchSpend] = [0, 1/2]` (its peak lies at `1/√3 > 1/2`), so the
sampled peak is the right endpoint, the run is feasible
(`32/25 ≥ 1`), and the 60-step bisection bracket is degenerate with width
`0`, not `maxSearchSpend / 2^60` as claimed. -/
theorem c7_counterexample :
    (findOptimalSpend pfPoly 1 ⟨2, 2, 1⟩ (1 / 2) 1).feasible = true ∧
    (bisectPair (marginalAt pfPoly ⟨2, 2, 1⟩ 1) 1
        ((peakPair (marginalAt pfPoly ⟨2, 2, 1⟩ 1) (1 / 2)).1, 1 / 2) 60).2
      - (bisectPair (marginalAt pfPoly ⟨2, 2, 1⟩ 1) 1
          ((peakPair (marginalAt pfPoly ⟨2, 2, 1⟩ 1) (1 / 2)).1, 1 / 2) 60).1
      ≠ (1 / 2) / 2 ^ 60 := by
  constructor
  · simp only [findOptimalSpend, peakPair_pfPoly]
    rw [if_neg (by norm_num)]
  · rw [peakPair_pfPoly]
    rw [bisectPair_width (marginalAt pfPoly ⟨2, 2, 1⟩ 1) 1 60 ((1 / 2, 32 / 25).1, 1 / 2)]
    norm_num
